import Mathlib

/-!
Verification of the eating-event detector of the catlink Fresh2 feeder
integration (`custom_components/catlink/modules/eating_data_processor.py`,
plus the event persistence code in
`custom_components/catlink/modules/fresh2_feeder_device.py`).

Modelling conventions:
* Python `datetime` timestamps are modelled as `Int` seconds.  All
  timestamp arithmetic in the source (`timedelta(seconds=...)`,
  `.total_seconds()`, `int(...)` truncation) is exact on integer-second
  timestamps, so `Int` subtraction models it faithfully.
* Python `int` weights are modelled as `Int` (Python ints are unbounded
  and may be negative).
* Python `Optional[...]` fields are modelled as `Option ...`.  Python
  truthiness tests (`if not self.last_stable_weight`) are modelled
  exactly: `None` and `0` are both falsy.
* The `deque(maxlen=720)` sample history is modelled as a `List` with an
  append operation that drops the leftmost element when full.
-/

/-- One weight measurement (`WeightSample` dataclass, lines 23-28). -/
structure WeightSample where
  timestamp : Int
  weight : Int
  is_stable : Bool
deriving DecidableEq, Repr

/-- A completed eating event (`EatingEvent` dataclass, lines 11-20). -/
structure EatingEvent where
  start_time : Int
  end_time : Int
  start_weight : Int
  end_weight : Int
  amount : Int
  duration : Int
  max_weight : Int
deriving DecidableEq, Repr

/-- State of `EatingDataProcessor` (lines 34-59).  The unused
`stability_start_time` / `stability_weight` fields from `__init__` (never
read or written elsewhere) are omitted. -/
structure EatingDataProcessor where
  stable_duration_seconds : Int
  sample_interval : Int
  min_eating_amount : Int
  spike_threshold : Int
  weight_samples : List WeightSample
  last_stable_weight : Option Int
  last_stable_time : Option Int
deriving DecidableEq, Repr

/-- Appending to `deque(maxlen=720)`: when the deque is full the leftmost
entry is discarded (line 55 sets the bound, line 82 appends). -/
def dequeAppend (hist : List WeightSample) (s : WeightSample) : List WeightSample :=
  if 720 ≤ hist.length then hist.tail ++ [s] else hist ++ [s]

/-- `EatingDataProcessor.check_stability` (lines 85-114).  Returns
`(is_stable, stable_weight)`.  The window filter keeps samples with
`timestamp > current_time - stable_duration_seconds`; stability requires
all window weights identical and the window time span at least
`stable_duration_seconds - sample_interval`. -/
def EatingDataProcessor.check_stability (p : EatingDataProcessor) : Bool × Int :=
  if p.weight_samples.length < 2 then (false, 0)
  else
    match p.weight_samples.getLast? with
    | none => (false, 0)
    | some lastSample =>
      let cutoff := lastSample.timestamp - p.stable_duration_seconds
      match p.weight_samples.filter (fun s => decide (cutoff < s.timestamp)) with
      | [] => (false, 0)
      | r :: rs =>
        if rs.all (fun s => s.weight == r.weight) then
          let lastRecent := (r :: rs).getLast (List.cons_ne_nil r rs)
          if p.stable_duration_seconds - p.sample_interval ≤
              lastRecent.timestamp - r.timestamp then
            (true, r.weight)
          else (false, 0)
        else (false, 0)

/-- `EatingDataProcessor.add_sample` (lines 61-83).  Evaluates stability
over the history *before* appending, marks the new sample, updates the
baseline when a (different) stable weight is found, then appends with the
`maxlen=720` deque semantics.  Returns the updated processor and the
sample. -/
def EatingDataProcessor.add_sample (p : EatingDataProcessor) (weight timestamp : Int) :
    EatingDataProcessor × WeightSample :=
  let st := p.check_stability
  let sample : WeightSample := { timestamp := timestamp, weight := weight, is_stable := st.1 }
  let p1 := if st.1 = true ∧ p.last_stable_weight ≠ some st.2 then
      { p with last_stable_weight := some st.2, last_stable_time := some timestamp }
    else p
  ({ p1 with weight_samples := dequeAppend p1.weight_samples sample }, sample)

/-- `EatingDataProcessor.detect_spike` (lines 116-133).  The guard
`if not self.last_stable_weight` is Python truthiness: a baseline of
`None` *or* `0` short-circuits to `False`. -/
def EatingDataProcessor.detect_spike (p : EatingDataProcessor) (weight : Int) : Bool :=
  match p.last_stable_weight with
  | none => false
  | some b =>
    if b = 0 then false
    else decide (b + p.spike_threshold < weight)

/-- The three states of `EatingStateMachine` (line 192, string-valued in
the source). -/
inductive EState where
  | IDLE
  | EATING
  | STABILIZING
deriving DecidableEq, Repr

/-- State of `EatingStateMachine` (lines 177-198). -/
structure EatingStateMachine where
  processor : EatingDataProcessor
  min_eating_amount : Int
  state : EState
  eating_start_time : Option Int
  eating_start_weight : Option Int
  max_weight_during_eating : Option Int
  stability_check_start : Option Int
  stability_check_weight : Option Int
  last_event : Option EatingEvent
deriving DecidableEq, Repr

/-- `EatingStateMachine._create_eating_event` (lines 313-326).
`max_weight=self.max_weight_during_eating or end_weight` is Python `or`:
a falsy (`None` or `0`) running peak falls back to the end weight.
The source reads `eating_start_weight`/`eating_start_time` directly and
would raise if they were `None`; that situation is unreachable from the
initial state (the caller only runs this while not IDLE), so the model
totalises it with `getD 0`. -/
def EatingStateMachine.create_eating_event (m : EatingStateMachine)
    (end_time end_weight : Int) : EatingEvent :=
  let sw := m.eating_start_weight.getD 0
  let st := m.eating_start_time.getD 0
  { start_time := st
    end_time := end_time
    start_weight := sw
    end_weight := end_weight
    amount := max 0 (sw - end_weight)
    duration := end_time - st
    max_weight :=
      match m.max_weight_during_eating with
      | none => end_weight
      | some mx => if mx = 0 then end_weight else mx }

/-- `EatingStateMachine._handle_idle_state` (lines 227-248).  The guard
`if not self.processor.last_stable_weight` is Python truthiness: both a
missing baseline and a recorded baseline of `0` return early. -/
def EatingStateMachine.handle_idle (m : EatingStateMachine) (weight timestamp : Int) :
    EatingStateMachine × Option EatingEvent :=
  match m.processor.last_stable_weight with
  | none => (m, none)
  | some b =>
    if b = 0 then (m, none)
    else if weight < b - m.min_eating_amount then
      ({ m with
          state := EState.EATING
          eating_start_time := some timestamp
          eating_start_weight := some b
          max_weight_during_eating := some weight }, none)
    else (m, none)

/-- `EatingStateMachine._handle_eating_state` (lines 250-271).
`stability_check_start` holds a `datetime` in the source, which is always
truthy when set, so `not self.stability_check_start` is exactly a `None`
test.  `weight != self.stability_check_weight` compares an `int` with an
`Optional[int]`; it is true when the field is `None`. -/
def EatingStateMachine.handle_eating (m : EatingStateMachine) (weight timestamp : Int) :
    EatingStateMachine × Option EatingEvent :=
  match m.stability_check_start with
  | none =>
    ({ m with stability_check_start := some timestamp
              stability_check_weight := some weight }, none)
  | some checkStart =>
    if m.stability_check_weight ≠ some weight then
      ({ m with stability_check_start := some timestamp
                stability_check_weight := some weight }, none)
    else if (10 : Int) ≤ timestamp - checkStart then
      ({ m with state := EState.STABILIZING }, none)
    else (m, none)

/-- `EatingStateMachine._handle_stabilizing_state` (lines 273-311).  The
source computes `timestamp - self.stability_check_start` directly and
would raise on a `None` check start; that state is unreachable (the
machine only enters STABILIZING with the check fields set), so the model
returns `(m, none)` there. -/
def EatingStateMachine.handle_stabilizing (m : EatingStateMachine) (weight timestamp : Int) :
    EatingStateMachine × Option EatingEvent :=
  if m.stability_check_weight ≠ some weight then
    ({ m with
        state := EState.EATING
        stability_check_start := some timestamp
        stability_check_weight := some weight }, none)
  else
    match m.stability_check_start with
    | none => (m, none)
    | some checkStart =>
      if m.processor.stable_duration_seconds ≤ timestamp - checkStart then
        let event := m.create_eating_event timestamp weight
        ({ m with
            state := EState.IDLE
            eating_start_time := none
            eating_start_weight := none
            stability_check_start := none
            stability_check_weight := none
            max_weight_during_eating := none
            last_event := some event }, some event)
      else (m, none)

/-- `EatingStateMachine.process_weight` (lines 200-225): add the sample to
the processor, update the running peak while EATING, then dispatch on the
state.  The handlers receive but never use the returned sample, so it is
not passed on. -/
def EatingStateMachine.process_weight (m : EatingStateMachine) (weight timestamp : Int) :
    EatingStateMachine × Option EatingEvent :=
  let ps := m.processor.add_sample weight timestamp
  let m1 := { m with processor := ps.1 }
  let m2 :=
    if m1.state = EState.EATING then
      match m1.max_weight_during_eating with
      | some mx => { m1 with max_weight_during_eating := some (max mx weight) }
      | none => m1
    else m1
  match m2.state with
  | EState.IDLE => m2.handle_idle weight timestamp
  | EState.EATING => m2.handle_eating weight timestamp
  | EState.STABILIZING => m2.handle_stabilizing weight timestamp

/-- `EatingStateMachine.is_eating` (lines 328-331). -/
def EatingStateMachine.is_eating (m : EatingStateMachine) : Bool :=
  m.state == EState.EATING || m.state == EState.STABILIZING

/-- `EatingStateMachine.current_eating_amount` (lines 333-340).  Both
guards are Python truthiness: `not self.eating_start_weight` is true for
`None` and for `0`; `self.stability_check_weight or 0` collapses `None`
and `0` to `0`.  In both cases the truthiness semantics coincide with
`Option.getD 0`. -/
def EatingStateMachine.current_eating_amount (m : EatingStateMachine) : Int :=
  if m.is_eating = false ∨ m.eating_start_weight.getD 0 = 0 then 0
  else max 0 (m.eating_start_weight.getD 0 - m.stability_check_weight.getD 0)

/-- Run a sequence of `(weight, timestamp)` inputs through
`process_weight`, collecting every emitted event in order. -/
def runMachine (m : EatingStateMachine) : List (Int × Int) → EatingStateMachine × List EatingEvent
  | [] => (m, [])
  | (w, t) :: rest =>
    let step := m.process_weight w t
    let tail := runMachine step.1 rest
    (tail.1, step.2.toList ++ tail.2)

/-- Run a sequence of `(weight, timestamp)` inputs through
`EatingDataProcessor.add_sample`. -/
def runAdds (p : EatingDataProcessor) (samples : List (Int × Int)) : EatingDataProcessor :=
  samples.foldl (fun q wt => (q.add_sample wt.1 wt.2).1) p

/-- The processor as constructed by `Fresh2FeederDevice.__init__`
(fresh2_feeder_device.py lines 39-44) with the default configuration:
`stable_duration_seconds=60`, `sample_interval=5`, `min_eating_amount=2`,
`spike_threshold=100`, empty history, no baseline. -/
def initProcessor : EatingDataProcessor :=
  { stable_duration_seconds := 60
    sample_interval := 5
    min_eating_amount := 2
    spike_threshold := 100
    weight_samples := []
    last_stable_weight := none
    last_stable_time := none }

/-- The state machine as constructed by `EatingStateMachine.__init__`
(lines 177-198) over `initProcessor` with `min_eating_amount=2`. -/
def initMachine : EatingStateMachine :=
  { processor := initProcessor
    min_eating_amount := 2
    state := EState.IDLE
    eating_start_time := none
    eating_start_weight := none
    max_weight_during_eating := none
    stability_check_start := none
    stability_check_weight := none
    last_event := none }

/-- Chronological order of a sample history: timestamps are
non-decreasing between every pair of samples. -/
abbrev Chron (l : List WeightSample) : Prop :=
  l.Pairwise (fun a b => a.timestamp ≤ b.timestamp)

/-- Bounded polling gaps: each sample arrives at most `g` seconds after
its predecessor. -/
abbrev MaxGap (g : Int) (l : List WeightSample) : Prop :=
  l.Chain' (fun a b => b.timestamp ≤ a.timestamp + g)

/-- One serialized eating event as written by
`Fresh2FeederDevice._save_eating_events` (fresh2_feeder_device.py lines
624-639): ISO-8601 timestamps round-trip exactly through
`datetime.fromisoformat`, so the stored `start`/`end` values are modelled
as the timestamps themselves.  The dict key `"end"` is the Lean field
`end_`. -/
structure StoredEvent where
  start : Int
  end_ : Int
  amount : Int
  duration : Int
  start_weight : Int
  end_weight : Int
  max_weight : Int
deriving DecidableEq, Repr

/-- Calendar date of an integer-second timestamp (`datetime.date()`):
the day number containing the instant. -/
def dateOf (t : Int) : Int := t / 86400

/-- `Fresh2FeederDevice._save_eating_events` (lines 619-641): serialize
the current event list, field for field. -/
def save_eating_events (events : List EatingEvent) : List StoredEvent :=
  events.map (fun e =>
    { start := e.start_time
      end_ := e.end_time
      amount := e.amount
      duration := e.duration
      start_weight := e.start_weight
      end_weight := e.end_weight
      max_weight := e.max_weight })

/-- `Fresh2FeederDevice._load_eating_events` (lines 643-671): rebuild the
event list from storage, keeping exactly the entries whose `start`
timestamp falls on the current calendar date.  (The source also skips
entries with missing keys or unparsable timestamps; data produced by
`save_eating_events` is always well-formed, so that branch cannot fire on
a round trip.) -/
def load_eating_events (today : Int) (stored : List StoredEvent) : List EatingEvent :=
  stored.filterMap (fun d =>
    if dateOf d.start = today then
      some { start_time := d.start
             end_time := d.end_
             start_weight := d.start_weight
             end_weight := d.end_weight
             amount := d.amount
             duration := d.duration
             max_weight := d.max_weight }
    else none)

/-! ### Concrete scenarios used by the claims -/

/-- Thirteen 500 g samples at 5 s cadence, `t = 0 .. 60`.  Feeding these
to `initMachine` records a stable baseline of 500 g (the stability window
first spans 55 s at the `t = 60` call) while the machine stays IDLE. -/
def samples500 : List (Int × Int) :=
  [(500, 0), (500, 5), (500, 10), (500, 15), (500, 20), (500, 25), (500, 30),
   (500, 35), (500, 40), (500, 45), (500, 50), (500, 55), (500, 60)]

/-- Fourteen 490 g samples at 5 s cadence, `t = 65 .. 130`, continuing
`samples500`: the 10 g drop at `t = 65` starts an eating cycle. -/
def samples490 : List (Int × Int) :=
  [(490, 65), (490, 70), (490, 75), (490, 80), (490, 85), (490, 90), (490, 95),
   (490, 100), (490, 105), (490, 110), (490, 115), (490, 120), (490, 125), (490, 130)]

/-- Thirteen 0 g samples at 5 s cadence: an empty bowl held steady.  The
processor records `last_stable_weight = 0` at the `t = 60` call. -/
def zeroSamples : List (Int × Int) :=
  [(0, 0), (0, 5), (0, 10), (0, 15), (0, 20), (0, 25), (0, 30),
   (0, 35), (0, 40), (0, 45), (0, 50), (0, 55), (0, 60)]

/-- Baseline 500 g, a 10 g drop at `t = 65`, then a spike to 600 g at
`t = 70` (a cat stepping on the bowl mid-meal). -/
def spikeSamples : List (Int × Int) := samples500 ++ [(490, 65), (600, 70)]

/-- A machine mid-cycle in the STABILIZING phase: eating started at
`t = 0` from a 500 g baseline, the inner stability check anchored at
`t = 5` on 490 g. -/
def stabMachine : EatingStateMachine :=
  { processor := initProcessor
    min_eating_amount := 2
    state := EState.STABILIZING
    eating_start_time := some 0
    eating_start_weight := some 500
    max_weight_during_eating := some 490
    stability_check_start := some 5
    stability_check_weight := some 490
    last_event := none }

/-- A machine mid-cycle in the EATING phase with the inner stability
check on 490 g. -/
def eatMachine : EatingStateMachine :=
  { stabMachine with state := EState.EATING }

/-! ### Claim C1 -/

/-- Claim C1, amended: from the initial machine, the 500 g warm-up
records a stable baseline of 500 g with the machine IDLE; the 490 g
sample at `t = 65` moves it to EATING with `eating_start_weight = 500`
and no event; after the fourth 490 g sample (`t = 80`, ten seconds after
the inner stability check was anchored at the second 490 g sample) the
machine is in STABILIZING; and the run through `t = 130` (60 s after the
anchor) emits exactly one event with `start_weight = 500`,
`end_weight = 490`, `amount = 10`, `duration = 65` and
`max_weight = 490 ≥ 490`, returning the state to IDLE. -/
theorem c1_scenario :
    ((runMachine initMachine samples500).1.state = EState.IDLE ∧
      (runMachine initMachine samples500).1.processor.last_stable_weight = some 500) ∧
    ((runMachine initMachine (samples500 ++ [(490, 65)])).1.state = EState.EATING ∧
      (runMachine initMachine (samples500 ++ [(490, 65)])).1.eating_start_weight = some 500 ∧
      (runMachine initMachine (samples500 ++ [(490, 65)])).2 = []) ∧
    ((runMachine initMachine
        (samples500 ++ [(490, 65), (490, 70), (490, 75), (490, 80)])).1.state =
      EState.STABILIZING) ∧
    ((runMachine initMachine (samples500 ++ samples490)).2 =
      [{ start_time := 65, end_time := 130, start_weight := 500, end_weight := 490,
         amount := 10, duration := 65, max_weight := 490 }] ∧
      (runMachine initMachine (samples500 ++ samples490)).1.state = EState.IDLE ∧
      (490 : Int) ≤ 490) := by
  decide

/-- Claim C1 counterexample: running the claimed scenario (500 g baseline
established over 60 s, then unchanged 490 g samples at the 5 s cadence)
emits its single event with `duration = 65`, not 70: the 60 s
confirmation clock runs from the inner stability anchor (the second
490 g sample, 5 s after the drop), so the event closes 65 s after the
drop. -/
theorem c1_counterexample :
    (runMachine initMachine (samples500 ++ samples490)).2.map (fun e => e.duration) = [65] ∧
    ¬ (runMachine initMachine (samples500 ++ samples490)).2.map (fun e => e.duration) = [70] := by
  decide

/-! ### Claim C4 -/

/-- Claim C4: any input processed while STABILIZING whose weight differs
from `stability_check_weight` emits no event, returns the machine to
EATING, and resets the inner stability check to the new timestamp and
weight. -/
theorem c4_stabilizing_resume (m : EatingStateMachine) (w t : Int)
    (hstate : m.state = EState.STABILIZING)
    (hdiff : m.stability_check_weight ≠ some w) :
    (m.process_weight w t).2 = none ∧
    (m.process_weight w t).1.state = EState.EATING ∧
    (m.process_weight w t).1.stability_check_start = some t ∧
    (m.process_weight w t).1.stability_check_weight = some w := by
  simp [EatingStateMachine.process_weight, hstate,
    EatingStateMachine.handle_stabilizing, hdiff]

/-- Witness for C4: a concrete STABILIZING machine receiving 495 g while
its stability check holds 490 g. -/
theorem c4_witness :
    (stabMachine.process_weight 495 85).2 = none ∧
    (stabMachine.process_weight 495 85).1.state = EState.EATING ∧
    (stabMachine.process_weight 495 85).1.stability_check_start = some 85 ∧
    (stabMachine.process_weight 495 85).1.stability_check_weight = some 495 :=
  c4_stabilizing_resume stabMachine 495 85 (by decide) (by decide)

/-! ### Claim C9 -/

/-- Claim C9, amended: `detect_spike weight` is true iff a *non-zero*
baseline is recorded and `weight > last_stable_weight + spike_threshold`;
with no recorded baseline it is false.  (The Python truthiness guard
`if not self.last_stable_weight` also treats a recorded baseline of 0 as
missing, which is the amendment.) -/
theorem c9_detect_spike_spec (p : EatingDataProcessor) (w : Int) :
    (p.detect_spike w = true ↔
      ∃ b, p.last_stable_weight = some b ∧ b ≠ 0 ∧ b + p.spike_threshold < w) ∧
    (p.last_stable_weight = none → p.detect_spike w = false) := by
  unfold EatingDataProcessor.detect_spike
  cases h : p.last_stable_weight with
  | none => simp
  | some b =>
    by_cases hb : b = 0
    · subst hb; simp
    · simp [hb]

/-- Witness for C9: a processor with baseline 400 g and the default
100 g spike threshold flags a 501 g reading. -/
theorem c9_witness :
    EatingDataProcessor.detect_spike
      { initProcessor with last_stable_weight := some 400 } 501 = true :=
  (c9_detect_spike_spec _ 501).1.mpr ⟨400, rfl, by decide, by decide⟩

set_option maxRecDepth 8000 in
/-- Claim C9 counterexample: feeding thirteen 0 g samples records a
baseline (`last_stable_weight = some 0`), and 200 g exceeds that baseline
by more than the 100 g threshold, yet `detect_spike 200` returns `false`:
the truthiness guard discards a recorded baseline of 0. -/
theorem c9_counterexample :
    (runAdds initProcessor zeroSamples).last_stable_weight = some 0 ∧
    (runAdds initProcessor zeroSamples).spike_threshold = 100 ∧
    (0 : Int) + 100 < 200 ∧
    (runAdds initProcessor zeroSamples).detect_spike 200 = false := by
  decide

/-! ### Claim C7 -/

/-- Claim C7, amended: `is_eating` is true exactly when the state is
EATING or STABILIZING; in IDLE, `current_eating_amount` is 0 and
`is_eating` is false; while eating with a set, non-zero
`eating_start_weight`, `current_eating_amount` equals
`max 0 (eating_start_weight - stability_check_weight)` (with an unset
check weight read as 0) — a value that is *not* always non-zero, since
the clamp bottoms out at 0 whenever the current weight reaches the start
weight. -/
theorem c7_derived_queries (m : EatingStateMachine) :
    (m.is_eating = true ↔ (m.state = EState.EATING ∨ m.state = EState.STABILIZING)) ∧
    (m.state = EState.IDLE → m.current_eating_amount = 0 ∧ m.is_eating = false) ∧
    (m.is_eating = true → m.eating_start_weight.getD 0 ≠ 0 →
      m.current_eating_amount =
        max 0 (m.eating_start_weight.getD 0 - m.stability_check_weight.getD 0)) := by
  refine ⟨?_, ?_, ?_⟩
  · cases h : m.state <;> simp [EatingStateMachine.is_eating, h]
  · intro h
    have : m.is_eating = false := by
      simp [EatingStateMachine.is_eating, h]
    simp [EatingStateMachine.current_eating_amount, this]
  · intro h1 h2
    simp [EatingStateMachine.current_eating_amount, h1, h2]

/-- Witness for C7: a concrete EATING machine with start weight 500 g
and check weight 490 g. -/
theorem c7_witness :
    eatMachine.current_eating_amount =
      max 0 (eatMachine.eating_start_weight.getD 0 - eatMachine.stability_check_weight.getD 0) :=
  (c7_derived_queries eatMachine).2.2 (by decide) (by decide)

/-- Claim C7 counterexample: after a 500 g baseline, a drop to 490 g
(entering EATING) and a spike to 600 g (the cat stepping on the bowl),
the machine is still EATING with `is_eating = true`, yet
`current_eating_amount` is 0 — refuting "non-zero throughout
EATING/STABILIZING". -/
theorem c7_counterexample :
    (runMachine initMachine spikeSamples).1.state = EState.EATING ∧
    (runMachine initMachine spikeSamples).1.is_eating = true ∧
    (runMachine initMachine spikeSamples).1.current_eating_amount = 0 := by
  decide

/-! ### Claim C3 -/

/-- Claim C3, amended: with the machine IDLE, `process_weight` never
returns an event, and it transitions to EATING exactly when the baseline
recorded after this call's `add_sample` is set *and non-zero* and the
weight is strictly below baseline minus `min_eating_amount`; on that
transition it sets `eating_start_time` to the sample timestamp,
`eating_start_weight` to the baseline and `max_weight_during_eating` to
the sample weight, and otherwise it leaves every machine field except the
processor unchanged.  (The non-zero requirement is the amendment: the
Python truthiness guard treats a recorded baseline of 0 as missing.) -/
theorem c3_idle_transition (m : EatingStateMachine) (w t : Int)
    (hstate : m.state = EState.IDLE) :
    (m.process_weight w t).2 = none ∧
    ((m.process_weight w t).1.state = EState.EATING ↔
      ∃ b, (m.processor.add_sample w t).1.last_stable_weight = some b ∧ b ≠ 0 ∧
        w < b - m.min_eating_amount) ∧
    (∀ b, (m.processor.add_sample w t).1.last_stable_weight = some b → b ≠ 0 →
      w < b - m.min_eating_amount →
      (m.process_weight w t).1 =
        { m with processor := (m.processor.add_sample w t).1
                 state := EState.EATING
                 eating_start_time := some t
                 eating_start_weight := some b
                 max_weight_during_eating := some w }) ∧
    ((¬ ∃ b, (m.processor.add_sample w t).1.last_stable_weight = some b ∧ b ≠ 0 ∧
        w < b - m.min_eating_amount) →
      (m.process_weight w t).1 = { m with processor := (m.processor.add_sample w t).1 }) := by
  unfold EatingStateMachine.process_weight
  simp only [hstate]
  cases hb : (m.processor.add_sample w t).1.last_stable_weight with
  | none =>
    simp [EatingStateMachine.handle_idle, hb, hstate]
  | some b =>
    by_cases h0 : b = 0
    · subst h0
      simp [EatingStateMachine.handle_idle, hb, hstate]
    · by_cases hlt : w < b - m.min_eating_amount
      · simp [EatingStateMachine.handle_idle, hb, h0, hlt, hstate]
      · simp [EatingStateMachine.handle_idle, hb, h0, hlt, hstate]
        omega

/-- Witness for C3: the machine that has just recorded a 500 g baseline
transitions to EATING on a 490 g sample (490 < 500 - 2). -/
theorem c3_witness :
    ((runMachine initMachine samples500).1.process_weight 490 65).1.state = EState.EATING :=
  (c3_idle_transition (runMachine initMachine samples500).1 490 65 (by decide)).2.1.mpr
    ⟨500, by decide, by decide, by decide⟩

/-- Claim C3 counterexample: thirteen 0 g samples record a baseline of
`some 0`; a following −5 g reading (scale drift below an empty bowl)
satisfies `weight < baseline - min_eating_amount` with the baseline
recorded, yet the machine stays IDLE and no fields are set: the
truthiness guard discards the recorded 0 g baseline, refuting the claim's
"exactly when a baseline is recorded". -/
theorem c3_counterexample :
    (runMachine initMachine zeroSamples).1.state = EState.IDLE ∧
    (runMachine initMachine zeroSamples).1.processor.last_stable_weight = some 0 ∧
    ((runMachine initMachine zeroSamples).1.processor.add_sample (-5) 65).1.last_stable_weight
      = some 0 ∧
    (-5 : Int) < 0 - 2 ∧
    (runMachine initMachine (zeroSamples ++ [(-5, 65)])).1.state = EState.IDLE ∧
    (runMachine initMachine (zeroSamples ++ [(-5, 65)])).2 = [] := by
  decide

/-! ### Claim C5 -/

/-- Each handler of the state machine returns `none` except the
STABILIZING finaliser, and the finaliser's event comes from
`create_eating_event`. -/
lemma handle_idle_snd (m : EatingStateMachine) (w t : Int) :
    (m.handle_idle w t).2 = none := by
  unfold EatingStateMachine.handle_idle
  split <;> (try split) <;> (try split) <;> rfl

lemma handle_eating_snd (m : EatingStateMachine) (w t : Int) :
    (m.handle_eating w t).2 = none := by
  unfold EatingStateMachine.handle_eating
  split <;> (try split) <;> (try split) <;> rfl

lemma handle_stabilizing_event (m : EatingStateMachine) (w t : Int) (e : EatingEvent)
    (h : (m.handle_stabilizing w t).2 = some e) :
    e = m.create_eating_event t w := by
  unfold EatingStateMachine.handle_stabilizing at h
  split at h
  · simp at h
  · split at h
    · simp at h
    · split at h
      · simp at h; exact h.symm
      · simp at h

lemma create_event_inv (m : EatingStateMachine) (t w : Int) :
    (m.create_eating_event t w).amount =
      max 0 ((m.create_eating_event t w).start_weight -
        (m.create_eating_event t w).end_weight) ∧
    (m.create_eating_event t w).duration =
      (m.create_eating_event t w).end_time - (m.create_eating_event t w).start_time := by
  simp [EatingStateMachine.create_eating_event]

lemma process_weight_event_inv (m : EatingStateMachine) (w t : Int) (e : EatingEvent)
    (h : (m.process_weight w t).2 = some e) :
    e.amount = max 0 (e.start_weight - e.end_weight) ∧
    e.duration = e.end_time - e.start_time := by
  unfold EatingStateMachine.process_weight at h
  dsimp only at h
  split at h
  · rw [handle_idle_snd] at h; cases h
  · rw [handle_eating_snd] at h; cases h
  · have := handle_stabilizing_event _ _ _ _ h
    subst this
    exact create_event_inv _ _ _

/-- Claim C5: every event the state machine emits over any run satisfies
`amount = max 0 (start_weight - end_weight)` and
`duration = end_time - start_time` in whole seconds. -/
theorem c5_event_invariant (m : EatingStateMachine) (samples : List (Int × Int))
    (e : EatingEvent) (he : e ∈ (runMachine m samples).2) :
    e.amount = max 0 (e.start_weight - e.end_weight) ∧
    e.duration = e.end_time - e.start_time := by
  induction samples generalizing m with
  | nil => simp [runMachine] at he
  | cons s rest ih =>
    obtain ⟨w, t⟩ := s
    simp only [runMachine, List.mem_append] at he
    cases he with
    | inl hmem =>
      rw [Option.mem_toList] at hmem
      exact process_weight_event_inv m w t e hmem
    | inr hmem => exact ih _ hmem

/-- Witness for C5: the event emitted by the concrete baseline-500,
drop-to-490 run. -/
theorem c5_witness :
    (⟨65, 130, 500, 490, 10, 65, 490⟩ : EatingEvent).amount =
      max 0 ((⟨65, 130, 500, 490, 10, 65, 490⟩ : EatingEvent).start_weight -
        (⟨65, 130, 500, 490, 10, 65, 490⟩ : EatingEvent).end_weight) ∧
    (⟨65, 130, 500, 490, 10, 65, 490⟩ : EatingEvent).duration =
      (⟨65, 130, 500, 490, 10, 65, 490⟩ : EatingEvent).end_time -
        (⟨65, 130, 500, 490, 10, 65, 490⟩ : EatingEvent).start_time :=
  c5_event_invariant initMachine (samples500 ++ samples490) _ (by decide)

/-! ### Claim C10 -/

/-- The transient-field invariant of the state machine: IDLE carries no
transient tracking state; EATING/STABILIZING carry the three
eating-start fields. -/
def MachineInv (m : EatingStateMachine) : Prop :=
  (m.state = EState.IDLE →
    m.eating_start_time = none ∧ m.eating_start_weight = none ∧
    m.max_weight_during_eating = none ∧ m.stability_check_start = none ∧
    m.stability_check_weight = none) ∧
  (m.state ≠ EState.IDLE →
    m.eating_start_time.isSome = true ∧ m.eating_start_weight.isSome = true ∧
    m.max_weight_during_eating.isSome = true)

/-- `_handle_idle_state` either leaves the machine unchanged or starts an
eating cycle with the three tracking fields set. -/
lemma handle_idle_cases (m : EatingStateMachine) (w t : Int) :
    (m.handle_idle w t).1 = m ∨
    ∃ b, (m.handle_idle w t).1 =
      { m with state := EState.EATING, eating_start_time := some t,
               eating_start_weight := some b, max_weight_during_eating := some w } := by
  unfold EatingStateMachine.handle_idle
  split
  · left; rfl
  · split
    · left; rfl
    · split
      · right; exact ⟨_, rfl⟩
      · left; rfl

/-- `_handle_eating_state` resets the inner check, enters STABILIZING, or
does nothing. -/
lemma handle_eating_cases (m : EatingStateMachine) (w t : Int) :
    (m.handle_eating w t).1 =
      { m with stability_check_start := some t, stability_check_weight := some w } ∨
    (m.handle_eating w t).1 = { m with state := EState.STABILIZING } ∨
    (m.handle_eating w t).1 = m := by
  unfold EatingStateMachine.handle_eating
  split
  · left; rfl
  · split
    · left; rfl
    · split
      · right; left; rfl
      · right; right; rfl

/-- `_handle_stabilizing_state` falls back to EATING, does nothing, or
closes the cycle clearing every transient field. -/
lemma handle_stabilizing_cases (m : EatingStateMachine) (w t : Int) :
    (m.handle_stabilizing w t).1 =
      { m with state := EState.EATING, stability_check_start := some t,
               stability_check_weight := some w } ∨
    (m.handle_stabilizing w t).1 = m ∨
    ∃ e, (m.handle_stabilizing w t).1 =
      { m with state := EState.IDLE, eating_start_time := none,
               eating_start_weight := none, stability_check_start := none,
               stability_check_weight := none, max_weight_during_eating := none,
               last_event := some e } := by
  unfold EatingStateMachine.handle_stabilizing
  split
  · left; rfl
  · split
    · right; left; rfl
    · split
      · right; right; exact ⟨_, rfl⟩
      · right; left; rfl

lemma process_weight_idle (m : EatingStateMachine) (w t : Int) (hs : m.state = EState.IDLE) :
    m.process_weight w t =
      EatingStateMachine.handle_idle
        { m with processor := (m.processor.add_sample w t).1 } w t := by
  unfold EatingStateMachine.process_weight
  dsimp only
  simp [hs]

lemma process_weight_eating (m : EatingStateMachine) (w t mx : Int)
    (hs : m.state = EState.EATING) (hmx : m.max_weight_during_eating = some mx) :
    m.process_weight w t =
      EatingStateMachine.handle_eating
        { m with processor := (m.processor.add_sample w t).1,
                 max_weight_during_eating := some (max mx w) } w t := by
  unfold EatingStateMachine.process_weight
  dsimp only
  simp [hs, hmx]

lemma process_weight_stabilizing (m : EatingStateMachine) (w t : Int)
    (hs : m.state = EState.STABILIZING) :
    m.process_weight w t =
      EatingStateMachine.handle_stabilizing
        { m with processor := (m.processor.add_sample w t).1 } w t := by
  unfold EatingStateMachine.process_weight
  dsimp only
  simp [hs]

/-- One `process_weight` step preserves the transient-field invariant. -/
lemma process_weight_inv (m : EatingStateMachine) (w t : Int) (h : MachineInv m) :
    MachineInv (m.process_weight w t).1 := by
  obtain ⟨hidle, hbusy⟩ := h
  cases hs : m.state with
  | IDLE =>
    obtain ⟨h1, h2, h3, h4, h5⟩ := hidle hs
    rw [process_weight_idle m w t hs]
    rcases handle_idle_cases { m with processor := (m.processor.add_sample w t).1 } w t with
      hc | ⟨b, hc⟩ <;> rw [hc] <;> constructor <;> intro hz <;> simp_all [MachineInv]
  | EATING =>
    obtain ⟨h1, h2, h3⟩ := hbusy (by simp [hs])
    obtain ⟨mx, hmx⟩ := Option.isSome_iff_exists.mp h3
    rw [process_weight_eating m w t mx hs hmx]
    rcases handle_eating_cases
        { m with processor := (m.processor.add_sample w t).1,
                 max_weight_during_eating := some (max mx w) } w t with
      hc | hc | hc <;> rw [hc] <;> constructor <;> intro hz <;> simp_all [MachineInv]
  | STABILIZING =>
    obtain ⟨h1, h2, h3⟩ := hbusy (by simp [hs])
    rw [process_weight_stabilizing m w t hs]
    rcases handle_stabilizing_cases
        { m with processor := (m.processor.add_sample w t).1 } w t with
      hc | hc | ⟨e, hc⟩ <;> rw [hc] <;> constructor <;> intro hz <;> simp_all [MachineInv]

lemma runMachine_inv (samples : List (Int × Int)) (m : EatingStateMachine)
    (h : MachineInv m) : MachineInv (runMachine m samples).1 := by
  induction samples generalizing m with
  | nil => exact h
  | cons s rest ih =>
    obtain ⟨w, t⟩ := s
    exact ih _ (process_weight_inv m w t h)

/-- Claim C10: over every input sequence from the initial state, the
machine satisfies the invariant: in IDLE all five transient fields are
unset (so they are cleared whenever a cycle returns to IDLE); otherwise
`eating_start_time`, `eating_start_weight` and `max_weight_during_eating`
are set. -/
theorem c10_state_invariant (samples : List (Int × Int)) :
    ((runMachine initMachine samples).1.state = EState.IDLE →
      (runMachine initMachine samples).1.eating_start_time = none ∧
      (runMachine initMachine samples).1.eating_start_weight = none ∧
      (runMachine initMachine samples).1.max_weight_during_eating = none ∧
      (runMachine initMachine samples).1.stability_check_start = none ∧
      (runMachine initMachine samples).1.stability_check_weight = none) ∧
    ((runMachine initMachine samples).1.state ≠ EState.IDLE →
      (runMachine initMachine samples).1.eating_start_time.isSome = true ∧
      (runMachine initMachine samples).1.eating_start_weight.isSome = true ∧
      (runMachine initMachine samples).1.max_weight_during_eating.isSome = true) :=
  runMachine_inv samples initMachine
    ⟨fun _ => ⟨rfl, rfl, rfl, rfl, rfl⟩, fun h => absurd rfl h⟩

set_option maxRecDepth 8000 in
/-- Witness for C10: the full eating-cycle run ends IDLE with every
transient field cleared. -/
theorem c10_witness :
    (runMachine initMachine (samples500 ++ samples490)).1.eating_start_time = none ∧
    (runMachine initMachine (samples500 ++ samples490)).1.eating_start_weight = none ∧
    (runMachine initMachine (samples500 ++ samples490)).1.max_weight_during_eating = none ∧
    (runMachine initMachine (samples500 ++ samples490)).1.stability_check_start = none ∧
    (runMachine initMachine (samples500 ++ samples490)).1.stability_check_weight = none :=
  (c10_state_invariant (samples500 ++ samples490)).1 (by decide)

/-- A concrete event on calendar day 1 (timestamps inside day 1). -/
def ev8 : EatingEvent :=
  { start_time := 86400 + 100, end_time := 86400 + 200, start_weight := 500,
    end_weight := 490, amount := 10, duration := 100, max_weight := 500 }

/-- Claim C8: persisting an event list and reloading it keeps exactly the
events whose `start_time` falls on the given calendar date, field for
field; when every event is from that date (the "same calendar date"
round trip) the reload reproduces the list identically, and stored
events from prior dates are discarded. -/
theorem c8_round_trip (evs : List EatingEvent) (today : Int) :
    load_eating_events today (save_eating_events evs) =
      evs.filter (fun e => decide (dateOf e.start_time = today)) ∧
    ((∀ e ∈ evs, dateOf e.start_time = today) →
      load_eating_events today (save_eating_events evs) = evs) := by
  have hfil : load_eating_events today (save_eating_events evs) =
      evs.filter (fun e => decide (dateOf e.start_time = today)) := by
    induction evs with
    | nil => rfl
    | cons e rest ih =>
      simp only [save_eating_events, List.map_cons, load_eating_events,
        List.filterMap_cons, List.filter_cons] at *
      by_cases hd : dateOf e.start_time = today
      · simp [hd, ih]
      · simp [hd, ih]
  refine ⟨hfil, fun hall => ?_⟩
  rw [hfil]
  exact List.filter_eq_self.mpr (fun a ha => by simp [hall a ha])

/-- Witness for C8: a one-event list from day 1 round-trips identically
when loaded on day 1. -/
theorem c8_witness :
    load_eating_events 1 (save_eating_events [ev8]) = [ev8] :=
  (c8_round_trip [ev8] 1).2 (by decide)

/-- Ring-buffer behaviour of the sample history under `add_sample`: the
history keeps the last (up to) 720 `(weight, timestamp)` pairs of the
appended stream. -/
lemma runAdds_hist (seq : List (Int × Int)) (p : EatingDataProcessor)
    (hlen : p.weight_samples.length ≤ 720) :
    (runAdds p seq).weight_samples.length =
      min (p.weight_samples.length + seq.length) 720 ∧
    (runAdds p seq).weight_samples.map (fun s => (s.weight, s.timestamp)) =
      (p.weight_samples.map (fun s => (s.weight, s.timestamp)) ++ seq).drop
        ((p.weight_samples.length + seq.length) - 720) := by
  induction seq generalizing p with
  | nil =>
    have h0 : p.weight_samples.length - 720 = 0 := Nat.sub_eq_zero_of_le hlen
    simp [runAdds, h0, Nat.min_eq_left hlen]
  | cons x seq ih =>
    obtain ⟨w, t⟩ := x
    have hstep : runAdds p ((w, t) :: seq) = runAdds (p.add_sample w t).1 seq := rfl
    have hhist : ((p.add_sample w t).1).weight_samples =
        dequeAppend p.weight_samples ⟨t, w, p.check_stability.1⟩ := by
      unfold EatingDataProcessor.add_sample
      dsimp only
      split <;> rfl
    rw [hstep]
    by_cases hfull : 720 ≤ p.weight_samples.length
    · have hlen720 : p.weight_samples.length = 720 := le_antisymm hlen hfull
      obtain ⟨a, l', hal⟩ : ∃ a l', p.weight_samples = a :: l' := by
        cases hh : p.weight_samples with
        | nil => rw [hh] at hlen720; simp at hlen720
        | cons a l' => exact ⟨a, l', rfl⟩
      have hl' : l'.length = 719 := by
        have := hlen720
        rw [hal] at this
        simpa using this
      have hhist' : ((p.add_sample w t).1).weight_samples =
          l' ++ [⟨t, w, p.check_stability.1⟩] := by
        rw [hhist, dequeAppend, if_pos hfull, hal]
        rfl
      obtain ⟨ihlen, ihmap⟩ := ih (p.add_sample w t).1
        (by rw [hhist']; simp [hl'])
      rw [hhist'] at ihlen ihmap
      constructor
      · rw [ihlen]
        simp only [List.length_append, List.length_cons, List.length_nil, hl', hlen720]
        omega
      · rw [ihmap, hal]
        have hidx1 : (l' ++ [(⟨t, w, p.check_stability.1⟩ : WeightSample)]).length
            + seq.length - 720 = seq.length := by
          simp [hl']
        have hidx2 : (a :: l').length + ((w, t) :: seq).length - 720 = seq.length + 1 := by
          simp [hl']
        rw [hidx1, hidx2]
        simp [List.drop_succ_cons]
    · have hhist' : ((p.add_sample w t).1).weight_samples =
          p.weight_samples ++ [⟨t, w, p.check_stability.1⟩] := by
        rw [hhist, dequeAppend, if_neg hfull]
      obtain ⟨ihlen, ihmap⟩ := ih (p.add_sample w t).1
        (by rw [hhist']; simp; omega)
      rw [hhist'] at ihlen ihmap
      constructor
      · rw [ihlen]
        simp only [List.length_append, List.length_cons, List.length_nil]
        omega
      · rw [ihmap]
        simp only [List.length_append, List.length_cons, List.length_nil,
          List.map_append, List.map_cons, List.map_nil, List.append_assoc,
          List.singleton_append, List.nil_append]
        have hidx : p.weight_samples.length + 1 + seq.length - 720 =
            p.weight_samples.length + (seq.length + 1) - 720 := by omega
        rw [hidx]

/-- Claim C6, amended: the *stability tracker's* sample history is a
bounded ordered ring buffer of capacity 720 (one hour at the 5 s
cadence), not ~17280: over every sequence of `add_sample` calls from the
initial processor its length is `min n 720` and its contents are exactly
the last 720 samples appended, oldest evicted first.  (The
17280-capacity deque at `fresh2_feeder_device.py` line 38 is a separate
device-level history, not the tracker's.) -/
theorem c6_history_capacity (seq : List (Int × Int)) :
    (runAdds initProcessor seq).weight_samples.length = min seq.length 720 ∧
    (runAdds initProcessor seq).weight_samples.map (fun s => (s.weight, s.timestamp)) =
      seq.drop (seq.length - 720) := by
  obtain ⟨h1, h2⟩ := runAdds_hist seq initProcessor (by norm_num [initProcessor])
  have h0 : initProcessor.weight_samples = [] := rfl
  rw [h0] at h1 h2
  simp only [List.length_nil, Nat.zero_add, List.map_nil, List.nil_append] at h1 h2
  exact ⟨h1, h2⟩

/-- One thousand identical samples at the 5 s cadence: 5000 s of
polling, well inside 24 h. -/
def c6seq : List (Int × Int) :=
  (List.range 1000).map (fun i : Nat => ((300 : Int), 5 * (i : Int)))

/-- Claim C6 counterexample: after 1000 `add_sample` calls — nowhere
near the claimed ~17280-entry (24 h) capacity — the tracker's history
holds only 720 samples: entries were evicted long before 17280, so a
full 24 h of samples is *not* retained by the tracker. -/
theorem c6_counterexample :
    c6seq.length = 1000 ∧
    (runAdds initProcessor c6seq).weight_samples.length = 720 ∧
    (runAdds initProcessor c6seq).weight_samples.length ≠ min c6seq.length 17280 := by
  have hlen : c6seq.length = 1000 := by
    unfold c6seq
    rw [List.length_map, List.length_range]
  have h720 : (runAdds initProcessor c6seq).weight_samples.length = 720 := by
    rw [(runAdds_hist c6seq initProcessor (by norm_num [initProcessor])).1, hlen]
    decide
  exact ⟨hlen, h720, by rw [h720, hlen]; decide⟩

/-! ### Claim C2 -/

/-- Fewer than two samples: not stable. -/
lemma check_stability_short (p : EatingDataProcessor)
    (h : p.weight_samples.length < 2) : p.check_stability = (false, 0) := by
  unfold EatingDataProcessor.check_stability
  simp [h]

/-- An empty stability window: not stable. -/
lemma check_stability_empty_window (p : EatingDataProcessor) (ls : WeightSample)
    (hlast : p.weight_samples.getLast? = some ls)
    (hwin : p.weight_samples.filter
      (fun s => decide (ls.timestamp - p.stable_duration_seconds < s.timestamp)) = []) :
    p.check_stability = (false, 0) := by
  unfold EatingDataProcessor.check_stability
  by_cases h : p.weight_samples.length < 2
  · simp [h]
  · simp only [h, if_false, hlast]
    rw [hwin]

/-- With at least 2 samples, `check_stability` succeeds with weight `w`
iff the window is non-empty, every window sample weighs `w`, and the
window's first-to-last span reaches
`stable_duration_seconds - sample_interval`. -/
lemma check_stability_true_iff (p : EatingDataProcessor) (ls : WeightSample)
    (hlen : 2 ≤ p.weight_samples.length)
    (hlast : p.weight_samples.getLast? = some ls) (w : Int) :
    p.check_stability = (true, w) ↔
      ∃ r rs, p.weight_samples.filter
          (fun s => decide (ls.timestamp - p.stable_duration_seconds < s.timestamp)) = r :: rs ∧
        (∀ s ∈ r :: rs, s.weight = w) ∧
        p.stable_duration_seconds - p.sample_interval ≤
          ((r :: rs).getLast (List.cons_ne_nil r rs)).timestamp - r.timestamp := by
  unfold EatingDataProcessor.check_stability
  have h2 : ¬ p.weight_samples.length < 2 := by omega
  simp only [h2, if_false, hlast]
  cases hfil : p.weight_samples.filter
      (fun s => decide (ls.timestamp - p.stable_duration_seconds < s.timestamp)) with
  | nil =>
    constructor
    · intro h; simp at h
    · rintro ⟨r, rs, heq, -, -⟩
      cases heq
  | cons r rs =>
    constructor
    · intro h
      dsimp only at h
      by_cases hall : rs.all (fun s => s.weight == r.weight)
      · rw [if_pos hall] at h
        by_cases hspan : p.stable_duration_seconds - p.sample_interval ≤
            ((r :: rs).getLast (List.cons_ne_nil r rs)).timestamp - r.timestamp
        · rw [if_pos hspan] at h
          have hw : r.weight = w := by
            have := congrArg Prod.snd h
            simpa using this
          refine ⟨r, rs, rfl, ?_, hspan⟩
          intro s hs
          rcases List.mem_cons.mp hs with rfl | hs'
          · exact hw
          · have h1 := List.all_eq_true.mp hall s hs'
            have h3 : s.weight = r.weight := by simpa using h1
            rw [h3, hw]
        · rw [if_neg hspan] at h
          simp at h
      · rw [if_neg hall] at h
        simp at h
    · rintro ⟨r', rs', heq, hallw, hspan⟩
      injection heq with h1 h2'
      subst h1
      subst h2'
      have hall : rs.all (fun s => s.weight == r.weight) = true := by
        rw [List.all_eq_true]
        intro s hs
        have ha := hallw s (List.mem_cons_of_mem r hs)
        have hb := hallw r (List.mem_cons_self r rs)
        simp [ha, hb]
      dsimp only
      rw [if_pos hall, if_pos hspan]
      have hc := hallw r (List.mem_cons_self r rs)
      rw [hc]

/-- On a chronologically ordered history the window filter keeps exactly
the suffix of samples newer than the cutoff. -/
lemma filter_gt_eq_dropWhile (c : Int) (l : List WeightSample) (h : Chron l) :
    l.filter (fun s => decide (c < s.timestamp)) =
      l.dropWhile (fun s => decide (s.timestamp ≤ c)) := by
  induction l with
  | nil => rfl
  | cons a l ih =>
    rw [Chron, List.pairwise_cons] at h
    obtain ⟨ha, hl⟩ := h
    by_cases hc : c < a.timestamp
    · have hfl : l.filter (fun s => decide (c < s.timestamp)) = l := by
        apply List.filter_eq_self.mpr
        intro b hb
        simpa using lt_of_lt_of_le hc (ha b hb)
      simp [List.filter_cons, List.dropWhile_cons, hc, not_le.mpr hc, hfl]
    · have hc' : a.timestamp ≤ c := not_lt.mp hc
      simp [List.filter_cons, List.dropWhile_cons, hc, hc', ih hl]

/-- A chronological history of identical-weight samples, polled with
gaps of at most `sample_interval`, whose total span reaches
`stable_duration_seconds - sample_interval`, is reported stable at that
weight. -/
lemma check_stability_of_uniform (p : EatingDataProcessor) (w : Int)
    (first ls : WeightSample)
    (hD : 0 < p.stable_duration_seconds)
    (hchron : Chron p.weight_samples)
    (hgap : MaxGap p.sample_interval p.weight_samples)
    (hlen : 2 ≤ p.weight_samples.length)
    (hall : ∀ s ∈ p.weight_samples, s.weight = w)
    (hhead : p.weight_samples.head? = some first)
    (hlast : p.weight_samples.getLast? = some ls)
    (hspan : p.stable_duration_seconds - p.sample_interval ≤
      ls.timestamp - first.timestamp) :
    p.check_stability = (true, w) := by
  rw [check_stability_true_iff p ls hlen hlast w]
  set c := ls.timestamp - p.stable_duration_seconds with hc
  have hdw := filter_gt_eq_dropWhile c p.weight_samples hchron
  have hsplit : p.weight_samples.takeWhile (fun s => decide (s.timestamp ≤ c)) ++
      p.weight_samples.dropWhile (fun s => decide (s.timestamp ≤ c)) = p.weight_samples :=
    List.takeWhile_append_dropWhile _ _
  have hlsmem : ls ∈ p.weight_samples := List.mem_of_getLast?_eq_some hlast
  have hlswin : ls ∈ p.weight_samples.filter (fun s => decide (c < s.timestamp)) :=
    List.mem_filter.mpr ⟨hlsmem, by simp; omega⟩
  obtain ⟨r, rs, hwin⟩ : ∃ r rs,
      p.weight_samples.filter (fun s => decide (c < s.timestamp)) = r :: rs := by
    cases hq : p.weight_samples.filter (fun s => decide (c < s.timestamp)) with
    | nil => rw [hq] at hlswin; cases hlswin
    | cons r rs => exact ⟨r, rs, rfl⟩
  have hdw' : p.weight_samples.dropWhile (fun s => decide (s.timestamp ≤ c)) = r :: rs := by
    rw [← hdw, hwin]
  refine ⟨r, rs, hwin, ?_, ?_⟩
  · intro s hs
    exact hall s (List.mem_of_mem_filter (hwin ▸ hs))
  · have hwl : (r :: rs).getLast (List.cons_ne_nil r rs) = ls := by
      have hsp : p.weight_samples.takeWhile (fun s => decide (s.timestamp ≤ c)) ++
          (r :: rs) = p.weight_samples := by
        rw [← hdw']; exact hsplit
      rw [← hsp, List.getLast?_append,
        List.getLast?_eq_getLast (r :: rs) (List.cons_ne_nil r rs)] at hlast
      simpa using hlast
    rw [hwl]
    cases htw : p.weight_samples.takeWhile (fun s => decide (s.timestamp ≤ c)) with
    | nil =>
      have hwhole : p.weight_samples = r :: rs := by
        rw [← hsplit, htw, List.nil_append, hdw']
      have hr : r = first := by
        rw [hwhole] at hhead
        have := hhead
        simp at this
        exact this
      rw [hr]
      exact hspan
    | cons q qs =>
      have hsplit' : (q :: qs) ++ (r :: rs) = p.weight_samples := by
        rw [← htw, ← hdw']; exact hsplit
      have hgap' : List.Chain'
          (fun a b => b.timestamp ≤ a.timestamp + p.sample_interval)
          ((q :: qs) ++ (r :: rs)) := by
        rw [hsplit']; exact hgap
      rw [List.chain'_append] at hgap'
      obtain ⟨-, -, hcross⟩ := hgap'
      have hql := List.getLast?_eq_getLast (q :: qs) (List.cons_ne_nil q qs)
      have hqlmem : (q :: qs).getLast (List.cons_ne_nil q qs) ∈ (q :: qs) :=
        List.getLast_mem _
      have hqlpred : ((q :: qs).getLast (List.cons_ne_nil q qs)).timestamp ≤ c := by
        have hm : (q :: qs).getLast (List.cons_ne_nil q qs) ∈
            p.weight_samples.takeWhile (fun s => decide (s.timestamp ≤ c)) := by
          rw [htw]; exact hqlmem
        have := List.mem_takeWhile_imp hm
        simpa using this
      have hr_gap : r.timestamp ≤
          ((q :: qs).getLast (List.cons_ne_nil q qs)).timestamp + p.sample_interval :=
        hcross _ (Option.mem_def.mpr hql) r (Option.mem_def.mpr rfl)
      omega

/-- Twelve 300 g samples at exact 5 s cadence spanning 55 s. -/
def stableRun : EatingDataProcessor :=
  runAdds initProcessor
    [(300, 0), (300, 5), (300, 10), (300, 15), (300, 20), (300, 25),
     (300, 30), (300, 35), (300, 40), (300, 45), (300, 50), (300, 55)]

/-- Claim C2, amended: `check_stability` returns `(false, 0)` whenever
fewer than 2 samples exist or the window is empty; on a chronological
history with at least 2 samples it returns `(true, w)` iff every sample
in the window `(latest - stable_duration, latest]` has the identical
weight `w` and the window's earliest-to-latest span is at least
`stable_duration_seconds - sample_interval`; and — the amended "in
particular" — every chronological history of at least two
identical-weight samples *with inter-sample gaps at most
sample_interval* spanning at least
`stable_duration_seconds - sample_interval` (for a positive stable
duration) yields `(true, that weight)`.  (The gap bound is the
amendment: with larger gaps the window can shrink below the required
span even though the whole history spans enough.) -/
theorem c2_stability_spec (p : EatingDataProcessor) :
    (p.weight_samples.length < 2 → p.check_stability = (false, 0)) ∧
    (∀ ls, p.weight_samples.getLast? = some ls →
      p.weight_samples.filter
        (fun s => decide (ls.timestamp - p.stable_duration_seconds < s.timestamp)) = [] →
      p.check_stability = (false, 0)) ∧
    (∀ ls w, 2 ≤ p.weight_samples.length → Chron p.weight_samples →
      p.weight_samples.getLast? = some ls →
      (p.check_stability = (true, w) ↔
        ∃ r rs, p.weight_samples.filter
            (fun s => decide (ls.timestamp - p.stable_duration_seconds < s.timestamp)) =
              r :: rs ∧
          (∀ s ∈ r :: rs, s.weight = w) ∧
          p.stable_duration_seconds - p.sample_interval ≤
            ((r :: rs).getLast (List.cons_ne_nil r rs)).timestamp - r.timestamp)) ∧
    (∀ w first ls, 0 < p.stable_duration_seconds → Chron p.weight_samples →
      MaxGap p.sample_interval p.weight_samples → 2 ≤ p.weight_samples.length →
      (∀ s ∈ p.weight_samples, s.weight = w) →
      p.weight_samples.head? = some first → p.weight_samples.getLast? = some ls →
      p.stable_duration_seconds - p.sample_interval ≤ ls.timestamp - first.timestamp →
      p.check_stability = (true, w)) :=
  ⟨fun h => check_stability_short p h,
   fun ls h1 h2 => check_stability_empty_window p ls h1 h2,
   fun ls w hlen _ hlast => check_stability_true_iff p ls hlen hlast w,
   fun w first ls hD hchron hgap hlen hall hhead hlast hspan =>
     check_stability_of_uniform p w first ls hD hchron hgap hlen hall hhead hlast hspan⟩

set_option maxRecDepth 8000 in
/-- Witness for C2: the 12-sample, 55 s, constant-300 g history is
reported stable at 300 g via the uniform-history conjunct. -/
theorem c2_witness :
    stableRun.check_stability = (true, 300) := by
  have hws : stableRun.weight_samples =
      [⟨0, 300, false⟩, ⟨5, 300, false⟩, ⟨10, 300, false⟩, ⟨15, 300, false⟩,
       ⟨20, 300, false⟩, ⟨25, 300, false⟩, ⟨30, 300, false⟩, ⟨35, 300, false⟩,
       ⟨40, 300, false⟩, ⟨45, 300, false⟩, ⟨50, 300, false⟩, ⟨55, 300, false⟩] := by
    decide
  have hsi : stableRun.sample_interval = 5 := by decide
  have hgap : MaxGap stableRun.sample_interval stableRun.weight_samples := by
    show List.Chain'
      (fun a b => b.timestamp ≤ a.timestamp + stableRun.sample_interval)
      stableRun.weight_samples
    rw [hsi, hws]
    simp [List.chain'_cons]
  exact (c2_stability_spec stableRun).2.2.2 300 ⟨0, 300, false⟩ ⟨55, 300, false⟩
    (by decide) (by decide) hgap (by decide) (by decide) (by decide)
    (by decide) (by decide)

set_option maxRecDepth 8000 in
/-- Claim C2 counterexample: two 300 g samples 100 s apart — an
identical-weight history spanning 100 ≥ 60 - 5 seconds — yet
`check_stability` returns `(false, 0)`: the 60 s window holds only the
last sample, so the window span is 0.  This refutes the claim's "for
every history of identical-weight samples spanning at least
stable_duration_seconds - sample_interval_seconds it returns (true, that
weight)". -/
theorem c2_counterexample :
    (runAdds initProcessor [((300 : Int), (0 : Int)), (300, 100)]).weight_samples.map
      (fun s => (s.weight, s.timestamp)) = [(300, 0), (300, 100)] ∧
    (runAdds initProcessor [((300 : Int), (0 : Int)), (300, 100)]).stable_duration_seconds
      = 60 ∧
    (runAdds initProcessor [((300 : Int), (0 : Int)), (300, 100)]).sample_interval = 5 ∧
    ((100 : Int) - 0 ≥ 60 - 5) ∧
    (runAdds initProcessor [((300 : Int), (0 : Int)), (300, 100)]).check_stability
      = (false, 0) := by
  decide
